import Mathlib

/-
  Verification development for the CoEdit real-time collaboration backend
  (`backend/server.py`).

  The Python module keeps all shared state in module-level maps plus a
  `MetricsCollector` instance and a `ConnectionManager` instance.  We embed
  that state as one record, `ServerState`, and translate each operation as a
  pure state transformer.  Conventions of the embedding:

  * Python `dict`s (insertion ordered, unique keys) are association lists
    `PyDict α β := List (α × β)`; `setK` replaces the value of an existing
    key in place and appends fresh keys at the end, `eraseK` removes a key,
    exactly like `d[k] = v` / `d.pop(k)`.
  * `defaultdict`-typed maps that are only ever read through defaulted
    access (`room_users`, `room_connections`) are total functions with
    default `[]`; `active_connections` is kept as a `PyDict` because
    `ConnectionManager.disconnect` observably branches on the presence of
    the room key.  `room_documents` is a plain dict, i.e. an
    `Option`-valued function.
  * A websocket is an `Endpoint`: an identity `eid` plus a flag `sendOk`
    saying whether sends on that socket currently succeed.  A successful
    `send_json` appends `(eid, message)` to the `sent` log; a failing one
    raises (modelled by the `raised` flag of `HResult`).
  * Document payloads are hex strings, `List Char`; binary frames carry
    `List Nat` bytes which `handle_binary_message` stores via `bytesHex`
    (Python `bytes.hex()`).
  * Opaque JSON payload values that the server merely stores and forwards
    (cursor positions, selections, awareness data, ping timestamps) are
    `JVal`; a client-supplied value is `JVal.str`, the `{"line": i,
    "column": j}` objects built by `simulate_users` are `JVal.posLC`.
  * `uuid4()` for metric-event ids is modelled by the counter `next_id`
    (only freshness/identity of events matters); the wall-clock `timestamp`
    field and the time-derived statistics (`uptime_seconds`,
    `messages_per_sec`) are not representable in a pure embedding and are
    omitted from `MetricEvent`/`Stats`.
-/

set_option autoImplicit false

namespace Backend

universe u v

/-! ## Association lists standing for Python dicts -/

abbrev PyDict (α : Type u) (β : Type v) := List (α × β)

variable {α : Type u} {β : Type v}

/-- First (= unique) value stored at key `k`, like `d.get(k)`. -/
def lookupK [DecidableEq α] : PyDict α β → α → Option β
  | [], _ => none
  | p :: ps, k => if p.1 = k then some p.2 else lookupK ps k

/-- Key membership, like `k in d`. -/
def containsK [DecidableEq α] (d : PyDict α β) (k : α) : Bool :=
  (lookupK d k).isSome

/-- `d[k] = v`: replace in place if the key exists, else append at the end
(Python dicts keep insertion order). -/
def setK [DecidableEq α] : PyDict α β → α → β → PyDict α β
  | [], k, v => [(k, v)]
  | p :: ps, k, v => if p.1 = k then (k, v) :: ps else p :: setK ps k v

/-- `d.pop(k, None)` / `del d[k]`: drop the entry holding key `k`. -/
def eraseK [DecidableEq α] : PyDict α β → α → PyDict α β
  | [], _ => []
  | p :: ps, k => if p.1 = k then ps else p :: eraseK ps k

/-- Pointwise update of a `defaultdict` modelled as a total function. -/
def updRoom {γ : Type v} (f : String → γ) (room : String) (v : γ) : String → γ :=
  fun r => if r = room then v else f r

/-- Python `l[-n:]` (note `l[-0:]` is the whole list, not the empty one). -/
def takeLast (l : List α) (n : Nat) : List α :=
  if n = 0 then l else l.drop (l.length - n)

/-- Lower-case hex digits. -/
def hexDigits : List Char := "0123456789abcdef".toList

/-- Two hex characters of one byte. -/
def byteHex (b : Nat) : List Char :=
  [hexDigits.getD (b / 16 % 16) '0', hexDigits.getD (b % 16) '0']

/-- Python `bytes.hex()`. -/
def bytesHex : List Nat → List Char
  | [] => []
  | b :: bs => byteHex b ++ bytesHex bs

/-! ## Data model -/

/-- Opaque JSON values the server stores and forwards without inspecting. -/
inductive JVal where
  | str (v : String)
  | posLC (line column : Nat)
deriving DecidableEq

/-- One user's presence entry (`room_users[room_id][client_id]`).  Organic
users created by a `join` message carry no `"simulated"` key, which we model
as `simulated = false`; `simulate_users` stores `"simulated": True`. -/
structure UserInfo where
  id : String
  name : String
  color : String
  avatar_url : Option String
  cursor_position : Option JVal
  selection : Option JVal
  simulated : Bool
deriving DecidableEq

/-- Entry of the `users_list` reply sent to a joining client. -/
structure UserSummary where
  id : String
  name : String
  color : String
  cursorPosition : Option JVal
deriving DecidableEq

/-- A live websocket: identity plus whether sends currently succeed. -/
structure Endpoint where
  eid : Nat
  sendOk : Bool
deriving DecidableEq

/-- Entry of `MetricsCollector.events`; `id` stands for the generated
`uuid4()` and the wall-clock `timestamp` is omitted. -/
structure MetricEvent where
  id : Nat
  type : String
  room_id : String
  user_id : String
  details : String
deriving DecidableEq

/-- Mutable fields of `MetricsCollector` (minus `start_time`). -/
structure MetricsState where
  message_count : Nat
  error_count : Nat
  reconnect_count : Nat
  latencies : List Nat
  doc_sizes : PyDict String Nat
  events : List MetricEvent
  next_id : Nat
deriving DecidableEq

def initialMetrics : MetricsState :=
  { message_count := 0, error_count := 0, reconnect_count := 0, latencies := [],
    doc_sizes := [], events := [], next_id := 0 }

def max_events : Nat := 100

/-- `MetricsCollector.record_message`. -/
def record_message (m : MetricsState) (latency_ms : Nat) : MetricsState :=
  let m1 := { m with message_count := m.message_count + 1 }
  if latency_ms > 0 then
    let ls := m1.latencies ++ [latency_ms]
    { m1 with latencies := if ls.length > 1000 then takeLast ls 1000 else ls }
  else m1

/-- `MetricsCollector.record_error`. -/
def record_error (m : MetricsState) : MetricsState :=
  { m with error_count := m.error_count + 1 }

/-- `MetricsCollector.record_doc_size`. -/
def record_doc_size (m : MetricsState) (room_id : String) (size : Nat) : MetricsState :=
  { m with doc_sizes := setK m.doc_sizes room_id size }

/-- `MetricsCollector.add_event`. -/
def addEvent (m : MetricsState) (event_type room_id user_id details : String) : MetricsState :=
  let ev : MetricEvent :=
    { id := m.next_id, type := event_type, room_id := room_id, user_id := user_id, details := details }
  let evs := m.events ++ [ev]
  { m with
    events := if evs.length > max_events then takeLast evs max_events else evs,
    next_id := m.next_id + 1 }

/-- `MetricsCollector.get_events`. -/
def get_events (m : MetricsState) (limit : Nat) : List MetricEvent :=
  takeLast m.events limit

/-- The fields of `MetricsCollector.get_stats()` that are functions of the
collector state alone (the time-derived fields and the counts read from the
global connection registry are omitted, see the header comment). -/
structure Stats where
  p50_latency_ms : Nat
  p95_latency_ms : Nat
  error_count : Nat
  reconnect_count : Nat
  total_doc_size_bytes : Nat
  total_messages : Nat
deriving DecidableEq

/-- `MetricsCollector.get_stats`.  `int(n * 0.5)` is `n / 2` and
`int(n * 0.95)` is `n * 95 / 100`: for every buffer length `n ≤ 1000` (the
buffer is trimmed to 1000 entries) Python's float product rounds to a value
with the same floor, so natural division is an exact translation. -/
def get_stats (m : MetricsState) : Stats :=
  let pair :=
    if m.latencies.isEmpty then ((0 : Nat), (0 : Nat))
    else
      let sorted := m.latencies.insertionSort (· ≤ ·)
      let p50_idx := sorted.length / 2
      let p95_idx := sorted.length * 95 / 100
      (if p50_idx < sorted.length then sorted.getD p50_idx 0 else 0,
       if p95_idx < sorted.length then sorted.getD p95_idx 0 else 0)
  { p50_latency_ms := pair.1, p95_latency_ms := pair.2,
    error_count := m.error_count, reconnect_count := m.reconnect_count,
    total_doc_size_bytes := (m.doc_sizes.map (fun p => p.2)).sum,
    total_messages := m.message_count }

/-! ## Messages -/

/-- Structured inbound messages, classified by their `type` field exactly as
`handle_json_message` branches on it.  Absent payload keys are `none`
(respectively `[]` for `message.get("data", "")`). -/
inductive InMsg where
  | join (name color avatar_url : Option String)
  | cursor (position : Option JVal)
  | selection (sel : Option JVal)
  | awareness (data : Option JVal)
  | sync_request
  | update (data : List Char)
  | ping (timestamp : Option JVal)
  | unknown
deriving DecidableEq

/-- Outbound frames, mirroring the JSON objects the server sends. -/
inductive OutMsg where
  | sync (data : List Char)
  | users (users : List UserInfo)
  | usersList (users : List UserSummary)
  | userJoined (userId name color : String)
  | userJoinedFull (user : UserInfo)
  | cursorMsg (userId name color : String) (position : Option JVal)
  | selectionMsg (user_id : String) (sel : Option JVal)
  | awareness (user_id : String) (data : Option JVal)
  | update (data : List Char) (sender : String)
  | pong (timestamp : Option JVal)
  | error (message : String)
  | userLeft (userId : String)
deriving DecidableEq

/-! ## Global server state -/

/-- All module-level mutable state of `server.py` relevant to the protocol,
plus the log `sent` of successful socket sends `(endpoint id, message)`. -/
structure ServerState where
  room_documents : String → Option (List Char)
  active_connections : PyDict String (PyDict String Endpoint)
  room_connections : String → List Nat
  room_users : String → PyDict String UserInfo
  metrics : MetricsState
  sent : List (Nat × OutMsg)

def initialState : ServerState :=
  { room_documents := fun _ => none, active_connections := [],
    room_connections := fun _ => [], room_users := fun _ => [],
    metrics := initialMetrics, sent := [] }

/-- Result of running a handler: the state it leaves behind and whether it
raised an exception (a failing direct `send_json`). -/
structure HResult where
  state : ServerState
  raised : Bool

/-- `websocket.send_json(m)`: log the frame on success, raise on failure. -/
def sendJson (s : ServerState) (ws : Endpoint) (m : OutMsg) : HResult :=
  if ws.sendOk then { state := { s with sent := s.sent ++ [(ws.eid, m)] }, raised := false }
  else { state := s, raised := true }

/-- `client_id != exclude_client` (where `exclude_client` may be `None`). -/
def deliverable (exclude : Option String) (cid : String) : Bool :=
  match exclude with
  | none => true
  | some e => decide (cid ≠ e)

/-- The inner connections dict of a room (empty when the room is absent). -/
def connsOf (s : ServerState) (room : String) : PyDict String Endpoint :=
  (lookupK s.active_connections room).getD []

/-- `ConnectionManager.connect` (the transport-level `accept()` has no state
effect in the model). -/
def connect (s : ServerState) (ws : Endpoint) (room_id client_id : String) : ServerState :=
  let conns := (lookupK s.active_connections room_id).getD []
  let added :=
    if (s.room_connections room_id).contains ws.eid then s.room_connections room_id
    else s.room_connections room_id ++ [ws.eid]
  let s1 := { s with
    active_connections := setK s.active_connections room_id (setK conns client_id ws),
    room_connections := updRoom s.room_connections room_id added }
  { s1 with metrics := addEvent s1.metrics "connect" room_id client_id "User connected" }

/-- `ConnectionManager.disconnect`. -/
def disconnect (s : ServerState) (room_id client_id : String) : ServerState :=
  let s1 :=
    match lookupK s.active_connections room_id with
    | none => s
    | some conns =>
        let wsOpt := lookupK conns client_id
        let sA := { s with active_connections := setK s.active_connections room_id (eraseK conns client_id) }
        let sB :=
          match wsOpt with
          | some ws =>
              let discarded := (sA.room_connections room_id).filter (fun e => e ≠ ws.eid)
              { sA with room_connections := updRoom sA.room_connections room_id discarded }
          | none => sA
        if containsK (sB.room_users room_id) client_id then
          { sB with room_users := updRoom sB.room_users room_id (eraseK (sB.room_users room_id) client_id) }
        else sB
  { s1 with metrics := addEvent s1.metrics "disconnect" room_id client_id "User disconnected" }

/-- One send attempt of the broadcast fan-out: the accumulator carries the
state (only `sent` changes during the pass) and the `disconnected` list. -/
def fanStep (m : OutMsg) (exclude : Option String) (acc : ServerState × List String)
    (p : String × Endpoint) : ServerState × List String :=
  if deliverable exclude p.1 then
    if p.2.sendOk then
      ({ acc.1 with sent := acc.1.sent ++ [(p.2.eid, m)] }, acc.2)
    else (acc.1, acc.2 ++ [p.1])
  else acc

/-- `ConnectionManager.broadcast`: fan out to every connection of the room
except the excluded client, swallowing per-endpoint send failures, then
disconnect the collected failures after the full pass. -/
def broadcast (s : ServerState) (room_id : String) (m : OutMsg) (exclude : Option String) : ServerState :=
  match lookupK s.active_connections room_id with
  | none => s
  | some conns =>
      let r := conns.foldl (fanStep m exclude) (s, [])
      r.2.foldl (fun st cid => disconnect st room_id cid) r.1

/-- The frames a fan-out pass over `conns` actually delivers. -/
def delivered (conns : PyDict String Endpoint) (exclude : Option String) (m : OutMsg) :
    List (Nat × OutMsg) :=
  (conns.filter (fun p => deliverable exclude p.1 && p.2.sendOk)).map (fun p => (p.2.eid, m))

/-- The clients a fan-out pass collects for deferred disconnection. -/
def failedIds (conns : PyDict String Endpoint) (exclude : Option String) : List String :=
  (conns.filter (fun p => deliverable exclude p.1 && !p.2.sendOk)).map (fun p => p.1)

/-! ## Message handlers -/

/-- `handle_json_message`. -/
def handle_json_message (s : ServerState) (ws : Endpoint) (room_id client_id : String)
    (msg : InMsg) : HResult :=
  match msg with
  | .join name color avatar_url =>
      let user : UserInfo :=
        { id := client_id,
          name := name.getD ("User-" ++ client_id.take 6),
          color := color.getD "#3B82F6",
          avatar_url := avatar_url,
          cursor_position := none, selection := none, simulated := false }
      let s1 := { s with room_users := updRoom s.room_users room_id (setK (s.room_users room_id) client_id user) }
      let s2 := { s1 with metrics := addEvent s1.metrics "join" room_id client_id ("User " ++ user.name ++ " joined") }
      let s3 := broadcast s2 room_id (.userJoined client_id user.name user.color) (some client_id)
      let users_list : List UserSummary :=
        ((s3.room_users room_id).filter (fun p => decide (p.1 ≠ client_id))).map
          (fun p => { id := p.1, name := p.2.name, color := p.2.color, cursorPosition := p.2.cursor_position })
      sendJson s3 ws (.usersList users_list)
  | .cursor position =>
      match lookupK (s.room_users room_id) client_id with
      | some u0 =>
          let u1 := { u0 with cursor_position := position }
          let s1 := { s with room_users := updRoom s.room_users room_id (setK (s.room_users room_id) client_id u1) }
          { state := broadcast s1 room_id (.cursorMsg client_id u1.name u1.color position) (some client_id),
            raised := false }
      | none => { state := s, raised := false }
  | .selection sel =>
      match lookupK (s.room_users room_id) client_id with
      | some u0 =>
          let u1 := { u0 with selection := sel }
          let s1 := { s with room_users := updRoom s.room_users room_id (setK (s.room_users room_id) client_id u1) }
          { state := broadcast s1 room_id (.selectionMsg client_id sel) (some client_id), raised := false }
      | none => { state := s, raised := false }
  | .awareness data =>
      { state := broadcast s room_id (.awareness client_id data) (some client_id), raised := false }
  | .sync_request =>
      match s.room_documents room_id with
      | some doc => if doc.isEmpty then { state := s, raised := false } else sendJson s ws (.sync doc)
      | none => { state := s, raised := false }
  | .update data =>
      if data.isEmpty then { state := s, raised := false }
      else
        let s1 := { s with room_documents := updRoom s.room_documents room_id (some data) }
        let s2 := { s1 with metrics := record_doc_size s1.metrics room_id data.length }
        { state := broadcast s2 room_id (.update data client_id) (some client_id), raised := false }
  | .ping timestamp => sendJson s ws (.pong timestamp)
  | .unknown => { state := s, raised := false }

/-- `handle_binary_message` (the websocket argument is unused, as in the
source). -/
def handle_binary_message (s : ServerState) (_ws : Endpoint) (room_id client_id : String)
    (data : List Nat) : HResult :=
  let s1 := { s with room_documents := updRoom s.room_documents room_id (some (bytesHex data)) }
  let s2 := { s1 with metrics := record_doc_size s1.metrics room_id data.length }
  { state := broadcast s2 room_id (.update (bytesHex data) client_id) (some client_id), raised := false }

/-! ## The receive loop -/

/-- One inbound frame, pre-classified the way the endpoint's `try` block
discriminates it: a text frame either fails `json.loads`
(`textInvalid`), or parses to a non-object on which `message.get` raises
`AttributeError` (`textNonObject`), or parses to an object dispatched by
`handle_json_message`. -/
inductive Frame where
  | textMsg (m : InMsg)
  | textInvalid
  | textNonObject
  | binary (data : List Nat)

/-- Where one loop iteration leaves the connection: back in the receive
state, or out of the loop (the `finally` cleanup runs next). -/
inductive StepOutcome where
  | receiving (s : ServerState)
  | closed (s : ServerState)

def StepOutcome.isReceiving : StepOutcome → Bool
  | .receiving _ => true
  | .closed _ => false

def StepOutcome.state : StepOutcome → ServerState
  | .receiving s => s
  | .closed s => s

/-- One iteration of the `while True` receive loop of `websocket_endpoint`,
given the next inbound frame and the measured latency. -/
def receiveStep (s : ServerState) (ws : Endpoint) (room_id client_id : String)
    (fr : Frame) (latency_ms : Nat) : StepOutcome :=
  match fr with
  | .textMsg m =>
      let r := handle_json_message s ws room_id client_id m
      if r.raised then .closed { r.state with metrics := record_error r.state.metrics }
      else .receiving { r.state with metrics := record_message r.state.metrics latency_ms }
  | .binary data =>
      let r := handle_binary_message s ws room_id client_id data
      if r.raised then .closed { r.state with metrics := record_error r.state.metrics }
      else .receiving { r.state with metrics := record_message r.state.metrics latency_ms }
  | .textInvalid =>
      let s1 := { s with metrics := record_error s.metrics }
      let r := sendJson s1 ws (.error "Invalid JSON")
      if r.raised then .closed s1 else .receiving r.state
  | .textNonObject =>
      .closed { s with metrics := record_error s.metrics }

/-! ## Load-testing simulation endpoints -/

def simColors : List String :=
  ["#F43F5E", "#10B981", "#3B82F6", "#F59E0B", "#8B5CF6", "#EC4899"]

/-- The `i`-th synthetic user of one `simulate_users` call; `gen i` stands
for the fresh `uuid4().hex[:8]` suffix drawn in that iteration. -/
def simUser (gen : Nat → String) (i : Nat) : String × UserInfo :=
  let uid := "sim-" ++ gen i
  (uid,
   { id := uid, name := "SimUser-" ++ toString (i + 1),
     color := simColors.getD (i % simColors.length) "",
     avatar_url := none,
     cursor_position := some (.posLC (i % 20) ((i * 5) % 80)),
     selection := none, simulated := true })

def simUsersList (gen : Nat → String) (count : Nat) : List (String × UserInfo) :=
  (List.range count).map (simUser gen)

/-- First loop of `simulate_users`: insert the synthetic presence entries
and record a `simulate` event for each. -/
def simInsertPhase (s : ServerState) (room_id : String) (count : Nat) (gen : Nat → String) : ServerState :=
  (List.range count).foldl
    (fun st i =>
      let p := simUser gen i
      let st1 := { st with room_users := updRoom st.room_users room_id (setK (st.room_users room_id) p.1 p.2) }
      { st1 with metrics := addEvent st1.metrics "simulate" room_id p.1 ("Simulated user " ++ p.2.name) })
    s

/-- `POST /simulate/users/{room_id}?count=N`: insert, then broadcast a
`user_joined` frame (carrying the whole user object, with no exclusion) for
each synthetic user. -/
def simulate_users (s : ServerState) (room_id : String) (count : Nat) (gen : Nat → String) : ServerState :=
  (List.range count).foldl
    (fun st i => broadcast st room_id (.userJoinedFull (simUser gen i).2) none)
    (simInsertPhase s room_id count gen)

/-- `DELETE /simulate/users/{room_id}`: delete every presence entry whose
`simulated` flag is truthy, broadcasting `user_left` for each; returns the
`removed` counter. -/
def remove_simulated_users (s : ServerState) (room_id : String) : ServerState × Nat :=
  let to_remove := ((s.room_users room_id).filter (fun p => p.2.simulated)).map (fun p => p.1)
  to_remove.foldl
    (fun (acc : ServerState × Nat) uid =>
      let st1 := { acc.1 with room_users := updRoom acc.1.room_users room_id (eraseK (acc.1.room_users room_id) uid) }
      (broadcast st1 room_id (.userLeft uid) none, acc.2 + 1))
    (s, 0)

/-! ## Derived definitions and concrete fixtures -/

/-- Override the `doc_sizes` gauge of a state (the single metric in which
the binary and the structured update path differ). -/
def withDocSizes (s : ServerState) (d : PyDict String Nat) : ServerState :=
  { s with metrics := { s.metrics with doc_sizes := d } }

/-- A whole sequence of `add_event` calls. -/
def addEvents (m : MetricsState) (inputs : List (String × String × String × String)) : MetricsState :=
  inputs.foldl (fun a e => addEvent a e.1 e.2.1 e.2.2.1 e.2.2.2) m

/-- The metric events a sequence of `add_event` calls generates, starting
from id counter `n`. -/
def genEvents : Nat → List (String × String × String × String) → List MetricEvent
  | _, [] => []
  | n, e :: es =>
      { id := n, type := e.1, room_id := e.2.1, user_id := e.2.2.1, details := e.2.2.2 }
        :: genEvents (n + 1) es

/-- Sample organic presence entries. -/
def uAlice : UserInfo :=
  { id := "a", name := "Alice", color := "#111111", avatar_url := none,
    cursor_position := none, selection := none, simulated := false }

def uBob : UserInfo :=
  { id := "b", name := "Bob", color := "#222222", avatar_url := none,
    cursor_position := none, selection := none, simulated := false }

/-- A room with one excluded healthy client, one healthy peer and one broken
peer. -/
def connsW : PyDict String Endpoint :=
  [("a", { eid := 1, sendOk := true }), ("b", { eid := 2, sendOk := true }),
   ("c", { eid := 3, sendOk := false })]

def stateW : ServerState := { initialState with active_connections := [("room", connsW)] }

def epW3a : Endpoint := { eid := 1, sendOk := true }

def epW3b : Endpoint := { eid := 2, sendOk := true }

def connsW3 : PyDict String Endpoint := [("a", epW3a), ("b", epW3b)]

/-- A room with two healthy connected users, both with presence entries. -/
def stateW3 : ServerState :=
  { initialState with
    active_connections := [("r", connsW3)],
    room_users := updRoom initialState.room_users "r" [("a", uAlice), ("b", uBob)] }

/-- Connect then disconnect one client (fixture for the repeated-disconnect
observation). -/
def s3cex : ServerState := connect initialState { eid := 1, sendOk := true } "r" "c"

def s3cex1 : ServerState := disconnect s3cex "r" "c"

/-- A room where the message sender is healthy but the other member's
socket is broken. -/
def stateC8 : ServerState :=
  { initialState with
    active_connections := [("r", [("a", { eid := 1, sendOk := true }), ("b", { eid := 2, sendOk := false })])],
    room_users := updRoom initialState.room_users "r" [("a", uAlice), ("b", uBob)] }

/-- A room with one organic user whose socket is broken. -/
def stateC9 : ServerState :=
  { initialState with
    active_connections := [("r", [("a", { eid := 1, sendOk := false })])],
    room_users := updRoom initialState.room_users "r" [("a", uAlice)] }

/-- A room holding a non-empty document and two healthy members. -/
def stateC5 : ServerState :=
  { initialState with
    active_connections := [("r", [("x", { eid := 1, sendOk := true }), ("y", { eid := 2, sendOk := true })])],
    room_documents := updRoom initialState.room_documents "r" (some ['a', 'b']) }

/-- Deterministic stand-in for the uuid suffixes of `simulate_users`. -/
def genW : Nat → String := fun i => toString i

/-- The latency fixture of the specification. -/
def mC6 : MetricsState := { initialMetrics with latencies := [10, 20, 30, 40, 50] }

/-- A three-event buffer fixture. -/
def mC10 : MetricsState :=
  { initialMetrics with
    events :=
      [{ id := 0, type := "a", room_id := "r", user_id := "u", details := "" },
       { id := 1, type := "b", room_id := "r", user_id := "u", details := "" },
       { id := 2, type := "c", room_id := "r", user_id := "u", details := "" }] }

/-- One generic `add_event` input. -/
def evIn : String × String × String × String := ("e", "r", "u", "d")

/-! ## Dictionary lemmas -/

section DictLemmas

variable {α : Type u} {β : Type v} [DecidableEq α]

theorem lookupK_setK_self (d : PyDict α β) (k : α) (v : β) :
    lookupK (setK d k v) k = some v := by
  induction d with
  | nil => simp [setK, lookupK]
  | cons p ps ih =>
      by_cases h : p.1 = k
      · simp [setK, h, lookupK]
      · simp [setK, h, lookupK, ih]

theorem lookupK_setK_ne (d : PyDict α β) (k k' : α) (v : β) (h : k' ≠ k) :
    lookupK (setK d k v) k' = lookupK d k' := by
  induction d with
  | nil => simp [setK, lookupK, Ne.symm h]
  | cons p ps ih =>
      by_cases hp : p.1 = k
      · subst hp
        simp only [setK, if_pos rfl]
        simp [lookupK, Ne.symm h]
      · simp only [setK, if_neg hp]
        by_cases hp' : p.1 = k'
        · simp [lookupK, hp']
        · simp [lookupK, hp', ih]

theorem setK_of_lookupK_eq (d : PyDict α β) (k : α) (v : β) (h : lookupK d k = some v) :
    setK d k v = d := by
  induction d with
  | nil => simp [lookupK] at h
  | cons p ps ih =>
      by_cases hp : p.1 = k
      · subst hp
        simp [lookupK] at h
        simp [setK, ← h]
      · simp only [lookupK, if_neg hp] at h
        simp only [setK, if_neg hp]
        rw [ih h]

theorem setK_append_of_not_contains (d : PyDict α β) (k : α) (v : β)
    (h : lookupK d k = none) : setK d k v = d ++ [(k, v)] := by
  induction d with
  | nil => simp [setK]
  | cons p ps ih =>
      by_cases hp : p.1 = k
      · simp [lookupK, hp] at h
      · simp [lookupK, hp] at h
        simp [setK, hp, ih h]

theorem eraseK_of_lookupK_none (d : PyDict α β) (k : α) (h : lookupK d k = none) :
    eraseK d k = d := by
  induction d with
  | nil => rfl
  | cons p ps ih =>
      by_cases hp : p.1 = k
      · simp [lookupK, hp] at h
      · simp [lookupK, hp] at h
        simp [eraseK, hp, ih h]

theorem lookupK_eraseK_ne (d : PyDict α β) (k k' : α) (h : k' ≠ k) :
    lookupK (eraseK d k) k' = lookupK d k' := by
  induction d with
  | nil => rfl
  | cons p ps ih =>
      by_cases hp : p.1 = k
      · subst hp
        simp only [eraseK, if_pos rfl]
        simp [lookupK, Ne.symm h]
      · simp only [eraseK, if_neg hp]
        by_cases hp' : p.1 = k'
        · simp [lookupK, hp']
        · simp [lookupK, hp', ih]

theorem eraseK_sublist (d : PyDict α β) (k : α) : List.Sublist (eraseK d k) d := by
  induction d with
  | nil => simp [eraseK]
  | cons p ps ih =>
      by_cases hp : p.1 = k
      · simp only [eraseK, hp, if_true]
        exact List.sublist_cons_self p ps
      · simp only [eraseK, hp, if_false]
        exact ih.cons₂ p

theorem lookupK_none_iff (d : PyDict α β) (k : α) :
    lookupK d k = none ↔ ∀ p ∈ d, p.1 ≠ k := by
  induction d with
  | nil => simp [lookupK]
  | cons p ps ih =>
      by_cases hp : p.1 = k
      · simp [lookupK, hp]
      · simp [lookupK, hp, ih]

theorem lookupK_none_of_sublist {d d' : PyDict α β} {k : α} (hs : List.Sublist d' d)
    (h : lookupK d k = none) : lookupK d' k = none := by
  rw [lookupK_none_iff] at h ⊢
  exact fun p hp => h p (hs.mem hp)

theorem lookupK_eraseK_self (d : PyDict α β) (k : α)
    (hnd : (d.map Prod.fst).Nodup) : lookupK (eraseK d k) k = none := by
  induction d with
  | nil => rfl
  | cons p ps ih =>
      simp only [List.map_cons, List.nodup_cons] at hnd
      by_cases hp : p.1 = k
      · subst hp
        simp only [eraseK, if_true]
        rw [lookupK_none_iff]
        intro q hq hqe
        exact hnd.1 (hqe ▸ List.mem_map_of_mem Prod.fst hq)
      · simp [eraseK, hp, lookupK, ih hnd.2]

theorem mem_eraseK_fst_ne {d : PyDict α β} {k : α} {p : α × β}
    (hnd : (d.map Prod.fst).Nodup) (hp : p ∈ eraseK d k) : p.1 ≠ k := by
  induction d with
  | nil => simp [eraseK] at hp
  | cons q ps ih =>
      simp only [List.map_cons, List.nodup_cons] at hnd
      by_cases hq : q.1 = k
      · subst hq
        simp only [eraseK, if_true] at hp
        intro hk
        exact hnd.1 (hk ▸ List.mem_map_of_mem Prod.fst hp)
      · simp only [eraseK, hq, if_false, List.mem_cons] at hp
        rcases hp with rfl | hp
        · exact hq
        · exact ih hnd.2 hp

theorem nodup_keys_eraseK (d : PyDict α β) (k : α) (hnd : (d.map Prod.fst).Nodup) :
    ((eraseK d k).map Prod.fst).Nodup :=
  hnd.sublist ((eraseK_sublist d k).map Prod.fst)

theorem containsK_false_iff (d : PyDict α β) (k : α) :
    containsK d k = false ↔ ∀ p ∈ d, p.1 ≠ k := by
  rw [← lookupK_none_iff]
  unfold containsK
  cases lookupK d k <;> simp

theorem containsK_append (a b : PyDict α β) (k : α) :
    containsK (a ++ b) k = (containsK a k || containsK b k) := by
  induction a with
  | nil => simp [containsK, lookupK]
  | cons p ps ih =>
      by_cases hp : p.1 = k
      · simp [containsK, lookupK, hp]
      · simpa [containsK, lookupK, hp] using ih

theorem lookupK_append_left (a b : PyDict α β) (k : α) (h : lookupK a k = none) :
    lookupK (a ++ b) k = lookupK b k := by
  induction a with
  | nil => rfl
  | cons p ps ih =>
      by_cases hp : p.1 = k
      · simp [lookupK, hp] at h
      · simp [lookupK, hp] at h ⊢
        exact ih h

end DictLemmas

/-! ## `updRoom` and `takeLast` lemmas -/

section RoomFun

variable {γ : Type v}

@[simp] theorem updRoom_self (f : String → γ) (room : String) (v : γ) :
    updRoom f room v room = v := by simp [updRoom]

theorem updRoom_other (f : String → γ) (room r : String) (v : γ) (h : r ≠ room) :
    updRoom f room v r = f r := by simp [updRoom, h]

theorem updRoom_id (f : String → γ) (room : String) :
    updRoom f room (f room) = f := by
  funext r
  by_cases h : r = room <;> simp [updRoom, h]

theorem updRoom_updRoom (f : String → γ) (room : String) (a b : γ) :
    updRoom (updRoom f room a) room b = updRoom f room b := by
  funext r
  by_cases h : r = room <;> simp [updRoom, h]

end RoomFun

section TakeLastLemmas

variable {α : Type u}

theorem takeLast_of_le (l : List α) (n : Nat) (h : l.length ≤ n) :
    takeLast l n = l := by
  unfold takeLast
  rcases Nat.eq_zero_or_pos n with h0 | h0
  · simp [h0]
  · have : l.length - n = 0 := by omega
    simp [Nat.pos_iff_ne_zero.mp h0, this]

theorem length_takeLast (l : List α) (n : Nat) (h : n ≠ 0) :
    (takeLast l n).length = min n l.length := by
  unfold takeLast
  simp [h, List.length_drop]
  omega

theorem takeLast_suffix (l : List α) (n : Nat) : takeLast l n <:+ l := by
  unfold takeLast
  rcases Nat.eq_zero_or_pos n with h0 | h0
  · simp [h0]
  · simp only [Nat.pos_iff_ne_zero.mp h0, if_false]
    exact List.drop_suffix _ l

theorem takeLast_append_takeLast (l l₂ : List α) (n : Nat) (hn : n ≠ 0) :
    takeLast (takeLast l n ++ l₂) n = takeLast (l ++ l₂) n := by
  unfold takeLast
  simp only [hn, if_false]
  rw [List.drop_append_eq_append_drop, List.drop_append_eq_append_drop, List.drop_drop]
  have hlen : (List.drop (l.length - n) l).length = l.length - (l.length - n) :=
    List.length_drop _ _
  have e1 : ∀ i j : Nat, i = j → List.drop i l = List.drop j l := by
    intro i j h
    rw [h]
  have e2 : ∀ i j : Nat, i = j → List.drop i l₂ = List.drop j l₂ := by
    intro i j h
    rw [h]
  refine congrArg₂ (· ++ ·) (e1 _ _ ?_) (e2 _ _ ?_) <;>
    simp only [List.length_append, hlen] <;> omega

end TakeLastLemmas

/-! ## Fan-out and disconnect lemmas -/

theorem delivered_nil (ex : Option String) (m : OutMsg) : delivered [] ex m = [] := rfl

theorem failedIds_nil (ex : Option String) : failedIds [] ex = [] := rfl

theorem fanout_foldl (m : OutMsg) (ex : Option String) (conns : PyDict String Endpoint) :
    ∀ (s : ServerState) (acc : List String),
      conns.foldl (fanStep m ex) (s, acc)
        = ({ s with sent := s.sent ++ delivered conns ex m }, acc ++ failedIds conns ex) := by
  induction conns with
  | nil =>
      intro s acc
      simp [delivered, failedIds]
  | cons p ps ih =>
      intro s acc
      simp only [List.foldl_cons]
      by_cases hd : deliverable ex p.1
      · by_cases hs : p.2.sendOk
        · rw [show fanStep m ex (s, acc) p = ({ s with sent := s.sent ++ [(p.2.eid, m)] }, acc) by
            simp [fanStep, hd, hs]]
          rw [ih]
          simp [delivered, failedIds, hd, hs, List.filter_cons]
        · rw [show fanStep m ex (s, acc) p = (s, acc ++ [p.1]) by
            simp [fanStep, hd, hs]]
          rw [ih]
          simp [delivered, failedIds, hd, hs, List.filter_cons]
      · rw [show fanStep m ex (s, acc) p = (s, acc) by simp [fanStep, hd]]
        rw [ih]
        simp [delivered, failedIds, hd, List.filter_cons]

theorem disconnect_sent (s : ServerState) (room_id client_id : String) :
    (disconnect s room_id client_id).sent = s.sent := by
  unfold disconnect
  dsimp only
  repeat' split
  all_goals rfl

theorem disconnect_documents (s : ServerState) (room_id client_id : String) :
    (disconnect s room_id client_id).room_documents = s.room_documents := by
  unfold disconnect
  dsimp only
  repeat' split
  all_goals rfl

theorem disconnect_doc_sizes (s : ServerState) (room_id client_id : String) :
    (disconnect s room_id client_id).metrics.doc_sizes = s.metrics.doc_sizes := by
  unfold disconnect
  dsimp only
  repeat' split
  all_goals rfl

theorem disconnect_active (s : ServerState) (room_id client_id : String)
    (conns : PyDict String Endpoint)
    (h : lookupK s.active_connections room_id = some conns) :
    lookupK (disconnect s room_id client_id).active_connections room_id
      = some (eraseK conns client_id) := by
  unfold disconnect
  rw [h]
  dsimp only
  repeat' split
  all_goals simp [lookupK_setK_self]

theorem foldl_disconnect_sent (room_id : String) (ids : List String) :
    ∀ (st : ServerState),
      (ids.foldl (fun st cid => disconnect st room_id cid) st).sent = st.sent := by
  induction ids with
  | nil => intro st; rfl
  | cons i rest ih =>
      intro st
      rw [List.foldl_cons, ih, disconnect_sent]

theorem foldl_disconnect_documents (room_id : String) (ids : List String) :
    ∀ (st : ServerState),
      (ids.foldl (fun st cid => disconnect st room_id cid) st).room_documents
        = st.room_documents := by
  induction ids with
  | nil => intro st; rfl
  | cons i rest ih =>
      intro st
      rw [List.foldl_cons, ih, disconnect_documents]

theorem foldl_disconnect_doc_sizes (room_id : String) (ids : List String) :
    ∀ (st : ServerState),
      (ids.foldl (fun st cid => disconnect st room_id cid) st).metrics.doc_sizes
        = st.metrics.doc_sizes := by
  induction ids with
  | nil => intro st; rfl
  | cons i rest ih =>
      intro st
      rw [List.foldl_cons, ih, disconnect_doc_sizes]

theorem foldl_disconnect_active (room_id : String) (ids : List String) :
    ∀ (st : ServerState) (conns : PyDict String Endpoint),
      lookupK st.active_connections room_id = some conns →
      lookupK ((ids.foldl (fun st cid => disconnect st room_id cid) st).active_connections) room_id
        = some (ids.foldl (fun d c => eraseK d c) conns) := by
  induction ids with
  | nil => intro st conns h; exact h
  | cons i rest ih =>
      intro st conns h
      rw [List.foldl_cons, List.foldl_cons]
      exact ih _ _ (disconnect_active st room_id i conns h)

theorem lookupK_eraseFold_not_mem (c : String) (ids : List String) :
    ∀ (d : PyDict String Endpoint), c ∉ ids →
      lookupK (ids.foldl (fun d k => eraseK d k) d) c = lookupK d c := by
  induction ids with
  | nil => intro d _; rfl
  | cons i rest ih =>
      intro d hc
      rw [List.foldl_cons, ih _ (fun h => hc (List.mem_cons_of_mem i h))]
      exact lookupK_eraseK_ne d i c (fun h => hc (h ▸ List.mem_cons_self i rest))

theorem nodup_keys_eraseFold (ids : List String) :
    ∀ (d : PyDict String Endpoint), (d.map Prod.fst).Nodup →
      ((ids.foldl (fun d k => eraseK d k) d).map Prod.fst).Nodup := by
  induction ids with
  | nil => intro d h; exact h
  | cons i rest ih =>
      intro d h
      rw [List.foldl_cons]
      exact ih _ (nodup_keys_eraseK d i h)

theorem lookupK_eraseFold_mem (c : String) (ids : List String) :
    ∀ (d : PyDict String Endpoint), (d.map Prod.fst).Nodup → c ∈ ids →
      lookupK (ids.foldl (fun d k => eraseK d k) d) c = none := by
  induction ids with
  | nil => intro d _ hc; simp at hc
  | cons i rest ih =>
      intro d hnd hc
      rw [List.foldl_cons]
      by_cases hr : c ∈ rest
      · exact ih _ (nodup_keys_eraseK d i hnd) hr
      · have hci : c = i := by
          rcases List.mem_cons.mp hc with h | h
          · exact h
          · exact absurd h hr
        subst hci
        rw [lookupK_eraseFold_not_mem c rest _ hr]
        exact lookupK_eraseK_self d c hnd

theorem lookupK_none_of_not_containsK {γ : Type u} {δ : Type v} [DecidableEq γ]
    {d : PyDict γ δ} {k : γ} (h : ¬ containsK d k = true) : lookupK d k = none := by
  unfold containsK at h
  cases hl : lookupK d k with
  | none => rfl
  | some v => rw [hl] at h; simp at h

theorem containsK_eq_false_of_lookupK_none {γ : Type u} {δ : Type v} [DecidableEq γ]
    {d : PyDict γ δ} {k : γ} (h : lookupK d k = none) : containsK d k = false := by
  unfold containsK
  rw [h]
  rfl

/-- The presence entry of the disconnected client is removed (for a room
whose key is present in the registry, i.e. any room a client ever connected
to). -/
theorem disconnect_users (s : ServerState) (room_id client_id : String)
    (conns : PyDict String Endpoint)
    (h : lookupK s.active_connections room_id = some conns) :
    (disconnect s room_id client_id).room_users room_id
      = eraseK (s.room_users room_id) client_id := by
  unfold disconnect
  rw [h]
  dsimp only
  by_cases hc : containsK (s.room_users room_id) client_id = true
  · cases lookupK conns client_id <;> simp [hc]
  · cases lookupK conns client_id <;>
      simp [hc, eraseK_of_lookupK_none _ _ (lookupK_none_of_not_containsK hc)]

/-- Presence of other rooms is untouched by `disconnect`. -/
theorem disconnect_users_other (s : ServerState) (room_id client_id r : String)
    (hr : r ≠ room_id) :
    (disconnect s room_id client_id).room_users r = s.room_users r := by
  unfold disconnect
  dsimp only
  repeat' split
  all_goals simp [updRoom_other _ _ _ _ hr]

/-- Disconnecting a client whose endpoint and presence entry are already
gone only records the `disconnect` metric event. -/
theorem disconnect_noop (t : ServerState) (room_id client_id : String)
    (conns' : PyDict String Endpoint)
    (h : lookupK t.active_connections room_id = some conns')
    (hws : lookupK conns' client_id = none)
    (hu : containsK (t.room_users room_id) client_id = false) :
    disconnect t room_id client_id
      = { t with metrics := addEvent t.metrics "disconnect" room_id client_id "User disconnected" } := by
  unfold disconnect
  rw [h]
  dsimp only
  rw [hws]
  rw [eraseK_of_lookupK_none _ _ hws, setK_of_lookupK_eq _ _ _ h]
  rw [if_neg (by rw [hu]; simp)]

/-! ## Broadcast lemmas -/

theorem broadcast_none (s : ServerState) (room_id : String) (m : OutMsg) (ex : Option String)
    (h : lookupK s.active_connections room_id = none) :
    broadcast s room_id m ex = s := by
  unfold broadcast
  rw [h]

theorem broadcast_some (s : ServerState) (room_id : String) (m : OutMsg) (ex : Option String)
    (conns : PyDict String Endpoint)
    (h : lookupK s.active_connections room_id = some conns) :
    broadcast s room_id m ex
      = (failedIds conns ex).foldl (fun st cid => disconnect st room_id cid)
          { s with sent := s.sent ++ delivered conns ex m } := by
  unfold broadcast
  rw [h]
  dsimp only
  rw [fanout_foldl]
  dsimp only
  rw [List.nil_append]

theorem broadcast_sent (s : ServerState) (room_id : String) (m : OutMsg) (ex : Option String)
    (conns : PyDict String Endpoint)
    (h : lookupK s.active_connections room_id = some conns) :
    (broadcast s room_id m ex).sent = s.sent ++ delivered conns ex m := by
  rw [broadcast_some s room_id m ex conns h, foldl_disconnect_sent]

theorem broadcast_documents (s : ServerState) (room_id : String) (m : OutMsg) (ex : Option String) :
    (broadcast s room_id m ex).room_documents = s.room_documents := by
  cases h : lookupK s.active_connections room_id with
  | none => rw [broadcast_none s room_id m ex h]
  | some conns =>
      rw [broadcast_some s room_id m ex conns h, foldl_disconnect_documents]

theorem broadcast_doc_sizes (s : ServerState) (room_id : String) (m : OutMsg) (ex : Option String) :
    (broadcast s room_id m ex).metrics.doc_sizes = s.metrics.doc_sizes := by
  cases h : lookupK s.active_connections room_id with
  | none => rw [broadcast_none s room_id m ex h]
  | some conns =>
      rw [broadcast_some s room_id m ex conns h, foldl_disconnect_doc_sizes]

/-! ## Doc-size commutation (used to compare the two update paths) -/

theorem disconnect_withDocSizes (s : ServerState) (d : PyDict String Nat)
    (room_id client_id : String) :
    disconnect (withDocSizes s d) room_id client_id
      = withDocSizes (disconnect s room_id client_id) d := by
  unfold disconnect withDocSizes
  dsimp only
  cases lookupK s.active_connections room_id with
  | none => rfl
  | some conns =>
      dsimp only
      cases lookupK conns client_id with
      | some ws =>
          dsimp only
          by_cases hc : containsK (s.room_users room_id) client_id = true
          · rw [if_pos hc, if_pos hc]
            rfl
          · rw [if_neg hc, if_neg hc]
            rfl
      | none =>
          dsimp only
          by_cases hc : containsK (s.room_users room_id) client_id = true
          · rw [if_pos hc, if_pos hc]
            rfl
          · rw [if_neg hc, if_neg hc]
            rfl

theorem foldl_disconnect_withDocSizes (room_id : String) (d : PyDict String Nat)
    (ids : List String) :
    ∀ (st : ServerState),
      ids.foldl (fun st cid => disconnect st room_id cid) (withDocSizes st d)
        = withDocSizes (ids.foldl (fun st cid => disconnect st room_id cid) st) d := by
  induction ids with
  | nil => intro st; rfl
  | cons i rest ih =>
      intro st
      rw [List.foldl_cons, List.foldl_cons, disconnect_withDocSizes, ih]

theorem broadcast_withDocSizes (s : ServerState) (d : PyDict String Nat)
    (room_id : String) (m : OutMsg) (ex : Option String) :
    broadcast (withDocSizes s d) room_id m ex
      = withDocSizes (broadcast s room_id m ex) d := by
  cases h : lookupK s.active_connections room_id with
  | none =>
      rw [broadcast_none s room_id m ex h]
      exact broadcast_none _ room_id m ex h
  | some conns =>
      have h' : lookupK (withDocSizes s d).active_connections room_id = some conns := h
      rw [broadcast_some _ room_id m ex conns h', broadcast_some s room_id m ex conns h]
      exact foldl_disconnect_withDocSizes room_id d (failedIds conns ex)
        { s with sent := s.sent ++ delivered conns ex m }

theorem failedIds_eq_nil (conns : PyDict String Endpoint) (ex : Option String)
    (h : ∀ p ∈ conns, p.2.sendOk = true) : failedIds conns ex = [] := by
  unfold failedIds
  rw [List.filter_eq_nil_iff.mpr]
  · rfl
  · intro p hp
    simp [h p hp]

/-- With every endpoint of the room healthy, a broadcast is exactly an
append to the send log. -/
theorem broadcast_ok (s : ServerState) (room_id : String) (m : OutMsg) (ex : Option String)
    (h : ∀ p ∈ connsOf s room_id, p.2.sendOk = true) :
    broadcast s room_id m ex = { s with sent := s.sent ++ delivered (connsOf s room_id) ex m } := by
  cases hl : lookupK s.active_connections room_id with
  | none =>
      rw [broadcast_none s room_id m ex hl]
      simp [connsOf, hl, delivered_nil]
  | some conns =>
      have hc : connsOf s room_id = conns := by simp [connsOf, hl]
      rw [broadcast_some s room_id m ex conns hl, hc]
      rw [failedIds_eq_nil conns ex (by rw [← hc] at *; exact h)]
      rfl

/-! ## Hex encoding lemmas -/

theorem length_byteHex (b : Nat) : (byteHex b).length = 2 := rfl

theorem length_bytesHex (data : List Nat) : (bytesHex data).length = 2 * data.length := by
  induction data with
  | nil => rfl
  | cons b bs ih =>
      simp only [bytesHex, List.length_append, length_byteHex, ih, List.length_cons]
      omega

theorem bytesHex_ne_nil (data : List Nat) (h : data ≠ []) : bytesHex data ≠ [] := by
  cases data with
  | nil => exact absurd rfl h
  | cons b bs => simp [bytesHex, byteHex]

/-! ## Handler unfolding lemmas -/

theorem handle_update_nonempty (s : ServerState) (ws : Endpoint) (room_id client_id : String)
    (data : List Char) (h : data ≠ []) :
    handle_json_message s ws room_id client_id (.update data)
      = { state := broadcast
            { s with room_documents := updRoom s.room_documents room_id (some data),
                     metrics := record_doc_size s.metrics room_id data.length }
            room_id (.update data client_id) (some client_id),
          raised := false } := by
  unfold handle_json_message
  dsimp only
  rw [if_neg (by simp [h])]

theorem handle_sync_request_some (s : ServerState) (ws : Endpoint) (room_id client_id : String)
    (doc : List Char) (hdoc : s.room_documents room_id = some doc) (hne : doc ≠ []) :
    handle_json_message s ws room_id client_id .sync_request = sendJson s ws (.sync doc) := by
  unfold handle_json_message
  dsimp only
  rw [hdoc]
  dsimp only
  rw [if_neg (by simp [hne])]

theorem handle_cursor_some (s : ServerState) (ws : Endpoint) (room_id client_id : String)
    (position : Option JVal) (u0 : UserInfo)
    (h : lookupK (s.room_users room_id) client_id = some u0) :
    handle_json_message s ws room_id client_id (.cursor position)
      = { state := broadcast
            { s with room_users := (updRoom s.room_users room_id
                (setK (s.room_users room_id) client_id { u0 with cursor_position := position })) }
            room_id (.cursorMsg client_id u0.name u0.color position) (some client_id),
          raised := false } := by
  unfold handle_json_message
  dsimp only
  rw [h]

theorem handle_cursor_none (s : ServerState) (ws : Endpoint) (room_id client_id : String)
    (position : Option JVal)
    (h : lookupK (s.room_users room_id) client_id = none) :
    handle_json_message s ws room_id client_id (.cursor position)
      = { state := s, raised := false } := by
  unfold handle_json_message
  dsimp only
  rw [h]

/-! ## Event buffer lemmas -/

theorem addEvent_events_eq (m : MetricsState) (t r u d : String) :
    (addEvent m t r u d).events
      = takeLast
          (m.events ++ [{ id := m.next_id, type := t, room_id := r, user_id := u, details := d }])
          max_events := by
  unfold addEvent
  dsimp only
  split
  · rfl
  · next hlen => exact (takeLast_of_le _ _ (Nat.le_of_not_lt hlen)).symm

theorem addEvent_next_id (m : MetricsState) (t r u d : String) :
    (addEvent m t r u d).next_id = m.next_id + 1 := rfl

theorem max_events_ne_zero : max_events ≠ 0 := by decide

theorem addEvents_events (inputs : List (String × String × String × String)) :
    ∀ (m : MetricsState), m.events.length ≤ max_events →
      (addEvents m inputs).events = takeLast (m.events ++ genEvents m.next_id inputs) max_events
      ∧ (addEvents m inputs).events.length ≤ max_events := by
  induction inputs with
  | nil =>
      intro m h
      refine ⟨?_, h⟩
      simp only [addEvents, List.foldl_nil, genEvents, List.append_nil]
      exact (takeLast_of_le _ _ h).symm
  | cons e es ih =>
      intro m h
      have h1 := addEvent_events_eq m e.1 e.2.1 e.2.2.1 e.2.2.2
      have hlen1 : (addEvent m e.1 e.2.1 e.2.2.1 e.2.2.2).events.length ≤ max_events := by
        rw [h1, length_takeLast _ _ max_events_ne_zero]
        exact Nat.min_le_left _ _
      have hstep : addEvents m (e :: es) = addEvents (addEvent m e.1 e.2.1 e.2.2.1 e.2.2.2) es := by
        simp [addEvents]
      obtain ⟨he, hl⟩ := ih (addEvent m e.1 e.2.1 e.2.2.1 e.2.2.2) hlen1
      refine ⟨?_, by rw [hstep]; exact hl⟩
      rw [hstep, he, h1, addEvent_next_id]
      rw [takeLast_append_takeLast _ _ _ max_events_ne_zero]
      rw [List.append_assoc]
      rfl

/-! ## Simulation lemmas -/

theorem simUsersList_succ (gen : Nat → String) (n : Nat) :
    simUsersList gen (n + 1) = simUsersList gen n ++ [simUser gen n] := by
  unfold simUsersList
  rw [List.range_succ, List.map_append]
  rfl

theorem mem_simUsersList (gen : Nat → String) (count : Nat) (p : String × UserInfo)
    (hp : p ∈ simUsersList gen count) :
    ∃ i, i < count ∧ p = simUser gen i := by
  unfold simUsersList at hp
  rcases List.mem_map.mp hp with ⟨i, hi, rfl⟩
  exact ⟨i, List.mem_range.mp hi, rfl⟩

theorem simUser_fst (gen : Nat → String) (i : Nat) : (simUser gen i).1 = "sim-" ++ gen i := rfl

theorem simUser_simulated (gen : Nat → String) (i : Nat) : (simUser gen i).2.simulated = true := rfl

theorem simInsertPhase_spec (room_id : String) (gen : Nat → String) :
    ∀ (count : Nat) (s : ServerState),
      (∀ i, i < count → containsK (s.room_users room_id) ("sim-" ++ gen i) = false) →
      (∀ i j, i < count → j < count → i ≠ j → ("sim-" ++ gen i) ≠ ("sim-" ++ gen j)) →
      (simInsertPhase s room_id count gen).room_users
          = updRoom s.room_users room_id (s.room_users room_id ++ simUsersList gen count)
        ∧ (simInsertPhase s room_id count gen).active_connections = s.active_connections
        ∧ (simInsertPhase s room_id count gen).sent = s.sent
        ∧ (simInsertPhase s room_id count gen).room_documents = s.room_documents := by
  intro count
  induction count with
  | zero =>
      intro s _ _
      refine ⟨?_, rfl, rfl, rfl⟩
      simp [simInsertPhase, simUsersList, updRoom_id]
  | succ n ih =>
      intro s hfresh hdist
      have hstep : simInsertPhase s room_id (n + 1) gen
          = (fun st =>
              let p := simUser gen n
              let st1 := { st with room_users := updRoom st.room_users room_id (setK (st.room_users room_id) p.1 p.2) }
              { st1 with metrics := addEvent st1.metrics "simulate" room_id p.1 ("Simulated user " ++ p.2.name) })
            (simInsertPhase s room_id n gen) := by
        unfold simInsertPhase
        rw [List.range_succ, List.foldl_append, List.foldl_cons, List.foldl_nil]
      obtain ⟨hu, ha, hs, hd⟩ := ih s
        (fun i hi => hfresh i (Nat.lt_succ_of_lt hi))
        (fun i j hi hj => hdist i j (Nat.lt_succ_of_lt hi) (Nat.lt_succ_of_lt hj))
      have hval : (simInsertPhase s room_id n gen).room_users room_id
          = s.room_users room_id ++ simUsersList gen n := by
        rw [hu, updRoom_self]
      have hnotin : containsK (s.room_users room_id ++ simUsersList gen n) ((simUser gen n).1) = false := by
        rw [containsK_append]
        have h1 : containsK (s.room_users room_id) ((simUser gen n).1) = false := by
          rw [simUser_fst]
          exact hfresh n (Nat.lt_succ_self n)
        have h2 : containsK (simUsersList gen n) ((simUser gen n).1) = false := by
          rw [containsK_false_iff]
          intro p hp
          rcases mem_simUsersList gen n p hp with ⟨i, hi, rfl⟩
          rw [simUser_fst, simUser_fst]
          exact hdist i n (Nat.lt_succ_of_lt hi) (Nat.lt_succ_self n) (Nat.ne_of_lt hi)
        rw [h1, h2]
        rfl
      have hset : setK (s.room_users room_id ++ simUsersList gen n) ((simUser gen n).1) ((simUser gen n).2)
          = s.room_users room_id ++ simUsersList gen (n + 1) := by
        rw [setK_append_of_not_contains]
        · rw [simUsersList_succ, ← List.append_assoc]
        · exact lookupK_none_of_not_containsK (by rw [hnotin]; simp)
      refine ⟨?_, ?_, ?_, ?_⟩
      · rw [hstep]
        dsimp only
        rw [hu, updRoom_updRoom]
        rw [show (updRoom s.room_users room_id (s.room_users room_id ++ simUsersList gen n)) room_id
              = s.room_users room_id ++ simUsersList gen n from updRoom_self _ _ _]
        rw [hset]
      · rw [hstep]
        dsimp only
        exact ha
      · rw [hstep]
        dsimp only
        exact hs
      · rw [hstep]
        dsimp only
        exact hd

theorem msgs_broadcast_fold (room_id : String) (conns0 : PyDict String Endpoint)
    (msgs : List OutMsg) :
    ∀ (s : ServerState), connsOf s room_id = conns0 → (∀ p ∈ conns0, p.2.sendOk = true) →
      msgs.foldl (fun st mm => broadcast st room_id mm none) s
        = { s with sent := s.sent ++ msgs.flatMap (fun mm => delivered conns0 none mm) } := by
  induction msgs with
  | nil =>
      intro s hc hok
      simp
  | cons mm ms ih =>
      intro s hc hok
      rw [List.foldl_cons]
      have hok' : ∀ p ∈ connsOf s room_id, p.2.sendOk = true := by rw [hc]; exact hok
      rw [broadcast_ok s room_id mm none hok', hc]
      have hc' : connsOf { s with sent := s.sent ++ delivered conns0 none mm } room_id = conns0 := hc
      rw [ih _ hc' hok]
      show ({ s with sent := (s.sent ++ delivered conns0 none mm)
              ++ ms.flatMap (fun mm => delivered conns0 none mm) } : ServerState) = _
      rw [List.append_assoc]
      rfl

theorem remove_fold (room_id : String) (conns0 : PyDict String Endpoint) (ks : List String) :
    ∀ (s : ServerState) (n : Nat), connsOf s room_id = conns0 → (∀ p ∈ conns0, p.2.sendOk = true) →
      ks.foldl
        (fun (acc : ServerState × Nat) uid =>
          let st1 := { acc.1 with room_users := updRoom acc.1.room_users room_id (eraseK (acc.1.room_users room_id) uid) }
          (broadcast st1 room_id (.userLeft uid) none, acc.2 + 1))
        (s, n)
      = ({ s with
            room_users := updRoom s.room_users room_id (ks.foldl (fun d k => eraseK d k) (s.room_users room_id)),
            sent := s.sent ++ ks.flatMap (fun k => delivered conns0 none (.userLeft k)) },
         n + ks.length) := by
  induction ks with
  | nil =>
      intro s n hc hok
      simp [updRoom_id]
  | cons k rest ih =>
      intro s n hc hok
      rw [List.foldl_cons]
      dsimp only
      have hok1 : ∀ p ∈ connsOf { s with room_users := updRoom s.room_users room_id (eraseK (s.room_users room_id) k) } room_id,
          p.2.sendOk = true := by
        rw [show connsOf { s with room_users := updRoom s.room_users room_id (eraseK (s.room_users room_id) k) } room_id
              = conns0 from hc]
        exact hok
      rw [broadcast_ok _ room_id (.userLeft k) none hok1]
      rw [show connsOf { s with room_users := updRoom s.room_users room_id (eraseK (s.room_users room_id) k) } room_id
            = conns0 from hc]
      have hc2 : connsOf ({ s with
          room_users := updRoom s.room_users room_id (eraseK (s.room_users room_id) k),
          sent := s.sent ++ delivered conns0 none (.userLeft k) } : ServerState) room_id = conns0 := hc
      rw [ih _ (n + 1) hc2 hok]
      refine congrArg₂ Prod.mk ?_ ?_
      · show ({ s with
            room_users := updRoom (updRoom s.room_users room_id (eraseK (s.room_users room_id) k)) room_id
              (rest.foldl (fun d k => eraseK d k)
                ((updRoom s.room_users room_id (eraseK (s.room_users room_id) k)) room_id)),
            sent := (s.sent ++ delivered conns0 none (.userLeft k))
              ++ rest.flatMap (fun k => delivered conns0 none (.userLeft k)) } : ServerState) = _
        rw [updRoom_updRoom, updRoom_self, List.append_assoc]
        rfl
      · simp [List.length_cons]
        omega

theorem foldl_eraseK_cons_ne (p : String × UserInfo) (ks : List String) :
    ∀ (ps : PyDict String UserInfo), (∀ k ∈ ks, p.1 ≠ k) →
      ks.foldl (fun d k => eraseK d k) (p :: ps) = p :: ks.foldl (fun d k => eraseK d k) ps := by
  induction ks with
  | nil => intro ps _; rfl
  | cons k rest ih =>
      intro ps hne
      rw [List.foldl_cons, List.foldl_cons]
      rw [show eraseK (p :: ps) k = p :: eraseK ps k by
        simp [eraseK, hne k (List.mem_cons_self k rest)]]
      exact ih _ (fun x hx => hne x (List.mem_cons_of_mem k hx))

theorem eraseFold_filter_users (d : PyDict String UserInfo)
    (hnd : (d.map Prod.fst).Nodup) :
    ((d.filter (fun p => p.2.simulated)).map (fun p => p.1)).foldl (fun d k => eraseK d k) d
      = d.filter (fun p => !p.2.simulated) := by
  induction d with
  | nil => rfl
  | cons p ps ih =>
      simp only [List.map_cons, List.nodup_cons] at hnd
      by_cases hsim : p.2.simulated
      · rw [show (p :: ps).filter (fun p => p.2.simulated) = p :: ps.filter (fun p => p.2.simulated) by
          simp [List.filter_cons, hsim]]
        rw [List.map_cons, List.foldl_cons]
        rw [show eraseK (p :: ps) p.1 = ps by simp [eraseK]]
        rw [ih hnd.2]
        simp [List.filter_cons, hsim]
      · rw [show (p :: ps).filter (fun p => p.2.simulated) = ps.filter (fun p => p.2.simulated) by
          simp [List.filter_cons, hsim]]
        have hne : ∀ k ∈ (ps.filter (fun q => q.2.simulated)).map (fun q => q.1), p.1 ≠ k := by
          intro k hk
          rcases List.mem_map.mp hk with ⟨q, hq, rfl⟩
          intro hpq
          exact hnd.1 (hpq ▸ List.mem_map_of_mem Prod.fst (List.mem_of_mem_filter hq))
        rw [foldl_eraseK_cons_ne p _ ps hne, ih hnd.2]
        simp [List.filter_cons, hsim]

/-! ## Claim theorems -/

/-- C1: in replace mode (the mode this code implements), handling an
`update` message with a non-empty payload `X` sets the room's snapshot to
exactly `X`; an immediately following `sync_request` (over a healthy
socket) replies with a `sync` frame carrying exactly `X` (round-trip
identity); a later non-empty update from any client replaces the snapshot
wholesale. -/
theorem update_sync_roundtrip (s : ServerState) (ws ws2 ws3 : Endpoint)
    (room_id cidS cidR cid3 : String) (X Y : List Char)
    (hX : X ≠ []) (hY : Y ≠ []) (hok2 : ws2.sendOk = true) :
    (handle_json_message s ws room_id cidS (.update X)).raised = false
    ∧ (handle_json_message s ws room_id cidS (.update X)).state.room_documents room_id = some X
    ∧ (handle_json_message (handle_json_message s ws room_id cidS (.update X)).state
        ws2 room_id cidR .sync_request).raised = false
    ∧ (handle_json_message (handle_json_message s ws room_id cidS (.update X)).state
        ws2 room_id cidR .sync_request).state.sent
      = (handle_json_message s ws room_id cidS (.update X)).state.sent ++ [(ws2.eid, OutMsg.sync X)]
    ∧ (handle_json_message (handle_json_message s ws room_id cidS (.update X)).state
        ws3 room_id cid3 (.update Y)).state.room_documents room_id = some Y := by
  have e1 := handle_update_nonempty s ws room_id cidS X hX
  have hdoc1 : (handle_json_message s ws room_id cidS (.update X)).state.room_documents room_id
      = some X := by
    rw [e1]
    dsimp only
    rw [broadcast_documents]
    exact updRoom_self _ _ _
  have e2 := handle_sync_request_some (handle_json_message s ws room_id cidS (.update X)).state
    ws2 room_id cidR X hdoc1 hX
  have e3 := handle_update_nonempty (handle_json_message s ws room_id cidS (.update X)).state
    ws3 room_id cid3 Y hY
  refine ⟨by rw [e1], hdoc1, ?_, ?_, ?_⟩
  · rw [e2]
    unfold sendJson
    rw [if_pos hok2]
  · rw [e2]
    unfold sendJson
    rw [if_pos hok2]
  · rw [e3]
    dsimp only
    rw [broadcast_documents]
    exact updRoom_self _ _ _

/-- Witness for C1 at a concrete room, payloads and sockets. -/
theorem update_sync_roundtrip_witness :
    (handle_json_message initialState { eid := 1, sendOk := true } "r" "s" (.update ['a'])).raised = false
    ∧ (handle_json_message initialState { eid := 1, sendOk := true } "r" "s" (.update ['a'])).state.room_documents "r" = some ['a']
    ∧ (handle_json_message (handle_json_message initialState { eid := 1, sendOk := true } "r" "s" (.update ['a'])).state
        { eid := 2, sendOk := true } "r" "q" .sync_request).raised = false
    ∧ (handle_json_message (handle_json_message initialState { eid := 1, sendOk := true } "r" "s" (.update ['a'])).state
        { eid := 2, sendOk := true } "r" "q" .sync_request).state.sent
      = (handle_json_message initialState { eid := 1, sendOk := true } "r" "s" (.update ['a'])).state.sent
          ++ [(2, OutMsg.sync ['a'])]
    ∧ (handle_json_message (handle_json_message initialState { eid := 1, sendOk := true } "r" "s" (.update ['a'])).state
        { eid := 3, sendOk := true } "r" "t" (.update ['b', 'c'])).state.room_documents "r" = some ['b', 'c'] :=
  update_sync_roundtrip initialState { eid := 1, sendOk := true } { eid := 2, sendOk := true }
    { eid := 3, sendOk := true } "r" "s" "q" "t" ['a'] ['b', 'c'] (by decide) (by decide) rfl

/-- C2: `broadcast(room, M, exclude = A)` appends to the send log exactly
one delivery per registered healthy endpoint other than `A`'s, in registry
order (a failing endpoint never blocks the rest); no delivery goes to `A`'s
endpoint; the collected failures are disconnected only after the pass, so
the post-state registry is the pre-state registry minus exactly the failed
clients. -/
theorem broadcast_fanout_spec (s : ServerState) (room_id A : String) (m : OutMsg)
    (conns : PyDict String Endpoint)
    (h : lookupK s.active_connections room_id = some conns)
    (hnd : (conns.map Prod.fst).Nodup) :
    (broadcast s room_id m (some A)).sent = s.sent ++ delivered conns (some A) m
    ∧ (∀ epA, lookupK conns A = some epA →
        (∀ p ∈ conns, p.1 ≠ A → p.2.eid ≠ epA.eid) →
        ∀ x ∈ delivered conns (some A) m, x.1 ≠ epA.eid)
    ∧ (∀ c ∈ failedIds conns (some A),
        lookupK (connsOf (broadcast s room_id m (some A)) room_id) c = none)
    ∧ (∀ c, c ∉ failedIds conns (some A) →
        lookupK (connsOf (broadcast s room_id m (some A)) room_id) c = lookupK conns c) := by
  have hsent := broadcast_sent s room_id m (some A) conns h
  have hact : lookupK (broadcast s room_id m (some A)).active_connections room_id
      = some ((failedIds conns (some A)).foldl (fun d c => eraseK d c) conns) := by
    rw [broadcast_some s room_id m (some A) conns h]
    exact foldl_disconnect_active room_id _ _ conns h
  refine ⟨hsent, ?_, ?_, ?_⟩
  · intro epA hA hinj x hx
    rcases List.mem_map.mp hx with ⟨p, hp, rfl⟩
    have hmem := List.mem_of_mem_filter hp
    have hpred := List.of_mem_filter hp
    simp only [deliverable, Bool.and_eq_true, decide_eq_true_eq] at hpred
    exact hinj p hmem hpred.1
  · intro c hc
    simp only [connsOf, hact, Option.getD_some]
    exact lookupK_eraseFold_mem c _ conns hnd hc
  · intro c hc
    simp only [connsOf, hact, Option.getD_some]
    exact lookupK_eraseFold_not_mem c _ conns hc

/-- Witness for C2 in a room with one healthy peer, one broken peer and the
excluded sender. -/
theorem broadcast_fanout_spec_witness :
    (broadcast stateW "room" (OutMsg.userLeft "z") (some "a")).sent
        = stateW.sent ++ delivered connsW (some "a") (OutMsg.userLeft "z")
    ∧ (∀ epA, lookupK connsW "a" = some epA →
        (∀ p ∈ connsW, p.1 ≠ "a" → p.2.eid ≠ epA.eid) →
        ∀ x ∈ delivered connsW (some "a") (OutMsg.userLeft "z"), x.1 ≠ epA.eid)
    ∧ (∀ c ∈ failedIds connsW (some "a"),
        lookupK (connsOf (broadcast stateW "room" (OutMsg.userLeft "z") (some "a")) "room") c = none)
    ∧ (∀ c, c ∉ failedIds connsW (some "a") →
        lookupK (connsOf (broadcast stateW "room" (OutMsg.userLeft "z") (some "a")) "room") c
          = lookupK connsW c) :=
  broadcast_fanout_spec stateW "room" "a" (OutMsg.userLeft "z") connsW (by decide) (by decide)

/-- C3 counterexample: a repeated `disconnect` for an already-removed client
is not free of state change — it still appends another `disconnect`
MetricEvent to the metrics buffer. -/
theorem disconnect_repeat_changes_state :
    (disconnect s3cex1 "r" "c").metrics.events.length ≠ s3cex1.metrics.events.length := by
  decide

/-- C3 (amended): `disconnect` removes the client's endpoint from the
registry and its presence entry; a subsequent broadcast delivers nothing to
the removed endpoint; a repeated disconnect leaves the registry, presence,
connection set and send log unchanged — its only effect is appending one
more `disconnect` MetricEvent — and is not an error. -/
theorem disconnect_spec (s : ServerState) (room_id client_id : String)
    (conns : PyDict String Endpoint)
    (h : lookupK s.active_connections room_id = some conns)
    (hndC : (conns.map Prod.fst).Nodup)
    (hndU : ((s.room_users room_id).map Prod.fst).Nodup) :
    lookupK (disconnect s room_id client_id).active_connections room_id
        = some (eraseK conns client_id)
    ∧ lookupK (eraseK conns client_id) client_id = none
    ∧ (disconnect s room_id client_id).room_users room_id = eraseK (s.room_users room_id) client_id
    ∧ (∀ (m : OutMsg) (ex : Option String),
        (broadcast (disconnect s room_id client_id) room_id m ex).sent
          = (disconnect s room_id client_id).sent ++ delivered (eraseK conns client_id) ex m)
    ∧ (∀ epc, lookupK conns client_id = some epc →
        (∀ p ∈ conns, p.1 ≠ client_id → p.2.eid ≠ epc.eid) →
        ∀ (m : OutMsg) (ex : Option String), ∀ x ∈ delivered (eraseK conns client_id) ex m,
          x.1 ≠ epc.eid)
    ∧ disconnect (disconnect s room_id client_id) room_id client_id
        = { disconnect s room_id client_id with
            metrics := addEvent (disconnect s room_id client_id).metrics
              "disconnect" room_id client_id "User disconnected" } := by
  have h1 := disconnect_active s room_id client_id conns h
  have h2 := lookupK_eraseK_self conns client_id hndC
  have h3 := disconnect_users s room_id client_id conns h
  refine ⟨h1, h2, h3, ?_, ?_, ?_⟩
  · intro m ex
    exact broadcast_sent _ room_id m ex _ h1
  · intro epc hepc hinj m ex x hx
    rcases List.mem_map.mp hx with ⟨p, hp, rfl⟩
    have hmem := List.mem_of_mem_filter hp
    have hne := mem_eraseK_fst_ne hndC hmem
    exact hinj p ((eraseK_sublist conns client_id).mem hmem) hne
  · refine disconnect_noop _ room_id client_id (eraseK conns client_id) h1 h2 ?_
    rw [h3]
    exact containsK_eq_false_of_lookupK_none (lookupK_eraseK_self _ _ hndU)

/-- Witness for C3 in a room with two connected users. -/
theorem disconnect_spec_witness :
    lookupK (disconnect stateW3 "r" "a").active_connections "r" = some (eraseK connsW3 "a")
    ∧ lookupK (eraseK connsW3 "a") "a" = none
    ∧ (disconnect stateW3 "r" "a").room_users "r" = eraseK (stateW3.room_users "r") "a"
    ∧ (∀ (m : OutMsg) (ex : Option String),
        (broadcast (disconnect stateW3 "r" "a") "r" m ex).sent
          = (disconnect stateW3 "r" "a").sent ++ delivered (eraseK connsW3 "a") ex m)
    ∧ (∀ epc, lookupK connsW3 "a" = some epc →
        (∀ p ∈ connsW3, p.1 ≠ "a" → p.2.eid ≠ epc.eid) →
        ∀ (m : OutMsg) (ex : Option String), ∀ x ∈ delivered (eraseK connsW3 "a") ex m,
          x.1 ≠ epc.eid)
    ∧ disconnect (disconnect stateW3 "r" "a") "r" "a"
        = { disconnect stateW3 "r" "a" with
            metrics := addEvent (disconnect stateW3 "r" "a").metrics "disconnect" "r" "a" "User disconnected" } :=
  disconnect_spec stateW3 "r" "a" connsW3 (by decide) (by decide) (by decide)

/-- C4 counterexample: when the direct error reply itself cannot be sent,
the loop `break`s — a malformed frame does terminate the connection. -/
theorem malformed_frame_can_close :
    (receiveStep initialState { eid := 5, sendOk := false } "r" "c" .textInvalid 0).isReceiving
      = false := rfl

/-- C4 (amended): a malformed frame records a protocol error and attempts a
direct error reply to the offending connection only; if the reply is
delivered the connection returns to Receiving, but if sending the reply
fails the connection is closed. -/
theorem malformed_frame_spec (s : ServerState) (ws : Endpoint) (room_id client_id : String)
    (latency_ms : Nat) :
    (ws.sendOk = true →
      receiveStep s ws room_id client_id .textInvalid latency_ms
        = .receiving { s with
            metrics := record_error s.metrics,
            sent := s.sent ++ [(ws.eid, OutMsg.error "Invalid JSON")] })
    ∧ (ws.sendOk = false →
      receiveStep s ws room_id client_id .textInvalid latency_ms
        = .closed { s with metrics := record_error s.metrics }) := by
  constructor
  · intro hok
    simp [receiveStep, sendJson, hok]
  · intro hko
    simp [receiveStep, sendJson, hko]

/-- Witness for C4 on a healthy socket (reply delivered, stays receiving)
and its closed counterpart is the counterexample above. -/
theorem malformed_frame_spec_witness :
    receiveStep initialState { eid := 7, sendOk := true } "r" "c" .textInvalid 3
      = .receiving { initialState with
          metrics := record_error initialState.metrics,
          sent := initialState.sent ++ [(7, OutMsg.error "Invalid JSON")] } :=
  (malformed_frame_spec initialState { eid := 7, sendOk := true } "r" "c" 3).1 rfl

/-- C5 counterexample: the preconditions of the two dispatch paths differ.
On the empty payload the binary path overwrites a non-empty snapshot and
still broadcasts, while the structured `update` path is a no-op. -/
theorem binary_empty_payload_differs :
    (handle_binary_message stateC5 { eid := 1, sendOk := true } "r" "x" []).state.room_documents "r"
        = some []
    ∧ (handle_json_message stateC5 { eid := 1, sendOk := true } "r" "x"
        (.update (bytesHex []))).state.room_documents "r" = some ['a', 'b']
    ∧ (handle_binary_message stateC5 { eid := 1, sendOk := true } "r" "x" []).state.sent
        ≠ (handle_json_message stateC5 { eid := 1, sendOk := true } "r" "x"
            (.update (bytesHex []))).state.sent := by
  refine ⟨by decide, by decide, by decide⟩

/-- C5 (amended): for every non-empty binary payload the binary handler and
a structured `update` carrying the hex encoding agree on the snapshot, the
broadcasts, the registry and presence — everything except the recorded doc
size: the binary path records the byte count while the structured path
records the hex-string length, twice the byte count (and, per the
counterexample, the binary path has no payload-present precondition). -/
theorem binary_update_equiv (s : ServerState) (ws wsj : Endpoint) (room_id client_id : String)
    (data : List Nat) (hne : data ≠ []) :
    (handle_binary_message s ws room_id client_id data).raised = false
    ∧ (handle_json_message s wsj room_id client_id (.update (bytesHex data))).raised = false
    ∧ withDocSizes (handle_binary_message s ws room_id client_id data).state []
        = withDocSizes (handle_json_message s wsj room_id client_id (.update (bytesHex data))).state []
    ∧ (handle_binary_message s ws room_id client_id data).state.metrics.doc_sizes
        = setK s.metrics.doc_sizes room_id data.length
    ∧ (handle_json_message s wsj room_id client_id (.update (bytesHex data))).state.metrics.doc_sizes
        = setK s.metrics.doc_sizes room_id (2 * data.length) := by
  have ej := handle_update_nonempty s wsj room_id client_id (bytesHex data) (bytesHex_ne_nil data hne)
  have eb : handle_binary_message s ws room_id client_id data
      = { state := broadcast
            { s with
              room_documents := updRoom s.room_documents room_id (some (bytesHex data)),
              metrics := record_doc_size s.metrics room_id data.length }
            room_id (.update (bytesHex data) client_id) (some client_id),
          raised := false } := rfl
  refine ⟨by rw [eb], by rw [ej], ?_, ?_, ?_⟩
  · rw [eb, ej]
    dsimp only
    rw [← broadcast_withDocSizes, ← broadcast_withDocSizes]
    rfl
  · rw [eb]
    dsimp only
    rw [broadcast_doc_sizes]
    rfl
  · rw [ej]
    dsimp only
    rw [broadcast_doc_sizes]
    show setK s.metrics.doc_sizes room_id (bytesHex data).length = _
    rw [length_bytesHex]

/-- Witness for C5 on a one-byte payload in a room with two members. -/
theorem binary_update_equiv_witness :
    (handle_binary_message stateC5 { eid := 1, sendOk := true } "r" "x" [171]).raised = false
    ∧ (handle_json_message stateC5 { eid := 1, sendOk := true } "r" "x"
        (.update (bytesHex [171]))).raised = false
    ∧ withDocSizes (handle_binary_message stateC5 { eid := 1, sendOk := true } "r" "x" [171]).state []
        = withDocSizes (handle_json_message stateC5 { eid := 1, sendOk := true } "r" "x"
            (.update (bytesHex [171]))).state []
    ∧ (handle_binary_message stateC5 { eid := 1, sendOk := true } "r" "x" [171]).state.metrics.doc_sizes
        = setK stateC5.metrics.doc_sizes "r" (List.length [171])
    ∧ (handle_json_message stateC5 { eid := 1, sendOk := true } "r" "x"
        (.update (bytesHex [171]))).state.metrics.doc_sizes
        = setK stateC5.metrics.doc_sizes "r" (2 * List.length [171]) :=
  binary_update_equiv stateC5 { eid := 1, sendOk := true } { eid := 1, sendOk := true }
    "r" "x" [171] (by decide)

/-- C6: `get_stats` reports p50 = p95 = 0 on an empty latency buffer;
otherwise, for the ascending sort of the buffer (characterised as any
sorted permutation of it), p50 is the element at index `floor(n * 0.5)` and
p95 the element at index `floor(n * 0.95)`; in particular the buffer
`[10, 20, 30, 40, 50]` yields p50 = 30 and p95 = 50. -/
theorem get_stats_percentiles (m : MetricsState) :
    (m.latencies = [] → (get_stats m).p50_latency_ms = 0 ∧ (get_stats m).p95_latency_ms = 0)
    ∧ (∀ (l' : List Nat), m.latencies ≠ [] → l'.Perm m.latencies → l'.Sorted (· ≤ ·) →
        (get_stats m).p50_latency_ms = l'.getD (l'.length / 2) 0
        ∧ (get_stats m).p95_latency_ms = l'.getD (l'.length * 95 / 100) 0)
    ∧ (get_stats mC6).p50_latency_ms = 30 ∧ (get_stats mC6).p95_latency_ms = 50 := by
  refine ⟨?_, ?_, by decide, by decide⟩
  · intro he
    unfold get_stats
    rw [if_pos (by simp [he])]
    exact ⟨rfl, rfl⟩
  · intro l' hne hperm hsorted
    have hins : l' = m.latencies.insertionSort (· ≤ ·) :=
      List.eq_of_perm_of_sorted
        (hperm.trans (List.perm_insertionSort (· ≤ ·) m.latencies).symm)
        hsorted (List.sorted_insertionSort (· ≤ ·) m.latencies)
    have hlen : (m.latencies.insertionSort (· ≤ ·)).length = m.latencies.length :=
      (List.perm_insertionSort (· ≤ ·) m.latencies).length_eq
    have hpos : 0 < m.latencies.length := List.length_pos.mpr hne
    unfold get_stats
    rw [if_neg (by simp [hne])]
    dsimp only
    rw [if_pos (by rw [hlen]; exact Nat.div_lt_self hpos (by norm_num)),
        if_pos (by rw [hlen, Nat.div_lt_iff_lt_mul (by norm_num)]; omega)]
    rw [hins]
    exact ⟨rfl, rfl⟩

/-- Witness for C6 at the specification's latency buffer. -/
theorem get_stats_percentiles_witness :
    (get_stats mC6).p50_latency_ms = List.getD [10, 20, 30, 40, 50] 2 0
    ∧ (get_stats mC6).p95_latency_ms = List.getD [10, 20, 30, 40, 50] 4 0 := by
  have h := (get_stats_percentiles mC6).2.1 [10, 20, 30, 40, 50] (by decide) (by decide) (by decide)
  exact ⟨h.1, h.2⟩

set_option maxRecDepth 40000 in
/-- C7: `add_event` keeps only the most recent 100 events (oldest evicted
first): after any call sequence the buffer is the 100-suffix of the full
generated event sequence; in particular after 150 calls `get_events(200)`
returns exactly the last 100 generated events, oldest first. -/
theorem event_buffer_spec (m : MetricsState) (inputs : List (String × String × String × String))
    (h : m.events.length ≤ max_events) :
    (addEvents m inputs).events = takeLast (m.events ++ genEvents m.next_id inputs) max_events
    ∧ (addEvents m inputs).events.length ≤ max_events
    ∧ get_events (addEvents initialMetrics (List.replicate 150 evIn)) 200
        = genEvents 50 (List.replicate 100 evIn) := by
  obtain ⟨h1, h2⟩ := addEvents_events inputs m h
  exact ⟨h1, h2, by decide⟩

/-- Witness for C7 on a one-event run from the empty collector. -/
theorem event_buffer_spec_witness :
    (addEvents initialMetrics [evIn]).events
        = takeLast (initialMetrics.events ++ genEvents initialMetrics.next_id [evIn]) max_events
    ∧ (addEvents initialMetrics [evIn]).events.length ≤ max_events
    ∧ get_events (addEvents initialMetrics (List.replicate 150 evIn)) 200
        = genEvents 50 (List.replicate 100 evIn) :=
  event_buffer_spec initialMetrics [evIn] (by decide)

/-- C8 counterexample: a `cursor` message is not free of effects on other
users' presence: when the broadcast hits a broken peer, the deferred
disconnect removes that peer's presence entry. -/
theorem cursor_removes_dead_peer :
    lookupK (stateC8.room_users "r") "b" = some uBob
    ∧ lookupK ((handle_json_message stateC8 { eid := 1, sendOk := true } "r" "a"
        (.cursor (some (.str "p")))).state.room_users "r") "b" = none := by
  refine ⟨by decide, by decide⟩

/-- C8 (amended): provided sends to the other room members succeed, a
`cursor` message from a sender with a presence entry updates only that
entry's `cursor_position`, leaves every other entry and room untouched,
and broadcasts a `cursor` frame to the others, excluding the sender; a
sender without a presence entry causes no state change and no broadcast. -/
theorem cursor_message_spec (s : ServerState) (ws : Endpoint) (room_id client_id : String)
    (position : Option JVal) (u0 : UserInfo)
    (hok : ∀ p ∈ connsOf s room_id, p.2.sendOk = true)
    (hu : lookupK (s.room_users room_id) client_id = some u0) :
    (handle_json_message s ws room_id client_id (.cursor position)).raised = false
    ∧ lookupK ((handle_json_message s ws room_id client_id (.cursor position)).state.room_users room_id)
        client_id = some { u0 with cursor_position := position }
    ∧ (∀ c, c ≠ client_id →
        lookupK ((handle_json_message s ws room_id client_id (.cursor position)).state.room_users room_id) c
          = lookupK (s.room_users room_id) c)
    ∧ (∀ r, r ≠ room_id →
        (handle_json_message s ws room_id client_id (.cursor position)).state.room_users r
          = s.room_users r)
    ∧ (handle_json_message s ws room_id client_id (.cursor position)).state.sent
        = s.sent ++ delivered (connsOf s room_id) (some client_id)
            (.cursorMsg client_id u0.name u0.color position)
    ∧ (handle_json_message s ws room_id client_id (.cursor position)).state.room_documents
        = s.room_documents
    ∧ (∀ (s2 : ServerState) (ws2 : Endpoint) (r2 c2 : String) (p2 : Option JVal),
        lookupK (s2.room_users r2) c2 = none →
        handle_json_message s2 ws2 r2 c2 (.cursor p2) = { state := s2, raised := false }) := by
  have e := handle_cursor_some s ws room_id client_id position u0 hu
  have hok1 : ∀ p ∈ connsOf { s with
      room_users := (updRoom s.room_users room_id
        (setK (s.room_users room_id) client_id { u0 with cursor_position := position })) } room_id,
      p.2.sendOk = true := hok
  have eb := broadcast_ok _ room_id (.cursorMsg client_id u0.name u0.color position)
    (some client_id) hok1
  refine ⟨by rw [e], ?_, ?_, ?_, ?_, ?_, ?_⟩
  · rw [e]
    dsimp only
    rw [eb]
    dsimp only
    rw [updRoom_self]
    exact lookupK_setK_self _ _ _
  · intro c hc
    rw [e]
    dsimp only
    rw [eb]
    dsimp only
    rw [updRoom_self]
    exact lookupK_setK_ne _ _ _ _ hc
  · intro r hr
    rw [e]
    dsimp only
    rw [eb]
    dsimp only
    exact updRoom_other _ _ _ _ hr
  · rw [e]
    dsimp only
    rw [eb]
    rfl
  · rw [e]
    dsimp only
    rw [eb]
  · intro s2 ws2 r2 c2 p2 hnone
    exact handle_cursor_none s2 ws2 r2 c2 p2 hnone

/-- Witness for C8 in a room with two healthy users. -/
theorem cursor_message_spec_witness :
    (handle_json_message stateW3 epW3a "r" "a" (.cursor (some (.str "pos")))).raised = false
    ∧ lookupK ((handle_json_message stateW3 epW3a "r" "a"
        (.cursor (some (.str "pos")))).state.room_users "r") "a"
        = some { uAlice with cursor_position := some (.str "pos") }
    ∧ (∀ c, c ≠ "a" →
        lookupK ((handle_json_message stateW3 epW3a "r" "a"
          (.cursor (some (.str "pos")))).state.room_users "r") c
          = lookupK (stateW3.room_users "r") c)
    ∧ (∀ r, r ≠ "r" →
        (handle_json_message stateW3 epW3a "r" "a" (.cursor (some (.str "pos")))).state.room_users r
          = stateW3.room_users r)
    ∧ (handle_json_message stateW3 epW3a "r" "a" (.cursor (some (.str "pos")))).state.sent
        = stateW3.sent ++ delivered (connsOf stateW3 "r") (some "a")
            (.cursorMsg "a" uAlice.name uAlice.color (some (.str "pos")))
    ∧ (handle_json_message stateW3 epW3a "r" "a" (.cursor (some (.str "pos")))).state.room_documents
        = stateW3.room_documents
    ∧ (∀ (s2 : ServerState) (ws2 : Endpoint) (r2 c2 : String) (p2 : Option JVal),
        lookupK (s2.room_users r2) c2 = none →
        handle_json_message s2 ws2 r2 c2 (.cursor p2) = { state := s2, raised := false }) :=
  cursor_message_spec stateW3 epW3a "r" "a" (some (.str "pos")) uAlice (by decide) (by decide)

/-- C9 counterexample: `POST /simulate/users` does not always add exactly N
presence entries and leave organic users alone — the `user_joined`
broadcast disconnects a broken organic peer and deletes its presence, so
the room's presence count does not grow by N. -/
theorem simulate_removes_dead_organic :
    (stateC9.room_users "r").length = 1
    ∧ lookupK (stateC9.room_users "r") "a" = some uAlice
    ∧ ((simulate_users stateC9 "r" 1 genW).room_users "r").length = 1
    ∧ lookupK ((simulate_users stateC9 "r" 1 genW).room_users "r") "a" = none := by
  refine ⟨by decide, by decide, by decide, by decide⟩

/-- C9 (amended): provided all member sockets are healthy and the drawn
uuid suffixes are fresh and distinct, `POST /simulate/users?count=N`
appends exactly N presence entries, each flagged simulated, broadcasting a
`user_joined` frame per synthetic user; a subsequent `DELETE` removes
exactly the simulated-flagged entries (broadcasting `user_left` per entry,
reporting N removed) and restores the organic presence map unchanged. -/
theorem simulate_users_spec (s : ServerState) (room_id : String) (count : Nat) (gen : Nat → String)
    (hok : ∀ p ∈ connsOf s room_id, p.2.sendOk = true)
    (hndU : ((s.room_users room_id).map Prod.fst).Nodup)
    (horg : ∀ p ∈ s.room_users room_id, p.2.simulated = false)
    (hfresh : ∀ i, i < count → containsK (s.room_users room_id) ("sim-" ++ gen i) = false)
    (hdist : ∀ i, i < count → ∀ j, j < count → i ≠ j → ("sim-" ++ gen i) ≠ ("sim-" ++ gen j)) :
    (simulate_users s room_id count gen).room_users room_id
        = s.room_users room_id ++ simUsersList gen count
    ∧ ((simulate_users s room_id count gen).room_users room_id).length
        = (s.room_users room_id).length + count
    ∧ (∀ q ∈ simUsersList gen count, q.2.simulated = true)
    ∧ (simulate_users s room_id count gen).sent
        = s.sent ++ (List.range count).flatMap
            (fun i => delivered (connsOf s room_id) none (.userJoinedFull (simUser gen i).2))
    ∧ (remove_simulated_users (simulate_users s room_id count gen) room_id).1.room_users room_id
        = s.room_users room_id
    ∧ (remove_simulated_users (simulate_users s room_id count gen) room_id).2 = count
    ∧ (remove_simulated_users (simulate_users s room_id count gen) room_id).1.sent
        = (simulate_users s room_id count gen).sent
            ++ ((simUsersList gen count).map (fun p => p.1)).flatMap
                (fun k => delivered (connsOf s room_id) none (.userLeft k)) := by
  have hdist2 : ∀ i j, i < count → j < count → i ≠ j → ("sim-" ++ gen i) ≠ ("sim-" ++ gen j) :=
    fun i j hi hj => hdist i hi j hj
  obtain ⟨hu, ha, hs, hd⟩ := simInsertPhase_spec room_id gen count s hfresh hdist2
  have hc1 : connsOf (simInsertPhase s room_id count gen) room_id = connsOf s room_id := by
    unfold connsOf
    rw [ha]
  have hsim : simulate_users s room_id count gen
      = { simInsertPhase s room_id count gen with
          sent := (simInsertPhase s room_id count gen).sent
            ++ ((List.range count).map (fun i => OutMsg.userJoinedFull (simUser gen i).2)).flatMap
                (fun mm => delivered (connsOf s room_id) none mm) } := by
    unfold simulate_users
    rw [show (List.range count).foldl
          (fun st i => broadcast st room_id (.userJoinedFull (simUser gen i).2) none)
          (simInsertPhase s room_id count gen)
        = ((List.range count).map (fun i => OutMsg.userJoinedFull (simUser gen i).2)).foldl
            (fun st mm => broadcast st room_id mm none)
            (simInsertPhase s room_id count gen) from
          (List.foldl_map (fun i => OutMsg.userJoinedFull (simUser gen i).2)
            (fun st mm => broadcast st room_id mm none) (List.range count)
            (simInsertPhase s room_id count gen)).symm]
    exact msgs_broadcast_fold room_id (connsOf s room_id) _ _ hc1 hok
  have ra : (simulate_users s room_id count gen).room_users room_id
      = s.room_users room_id ++ simUsersList gen count := by
    rw [hsim]
    show (simInsertPhase s room_id count gen).room_users room_id = _
    rw [hu]
    exact updRoom_self _ _ _
  have hlenNew : (simUsersList gen count).length = count := by
    simp [simUsersList]
  have hknew : (simUsersList gen count).map Prod.fst
      = (List.range count).map (fun i => "sim-" ++ gen i) := by
    unfold simUsersList
    rw [List.map_map]
    rfl
  have hndNew : ((simUsersList gen count).map Prod.fst).Nodup := by
    rw [hknew]
    refine List.Nodup.map_on ?_ (List.nodup_range count)
    intro x hx y hy hxy
    by_contra hne
    exact hdist x (List.mem_range.mp hx) y (List.mem_range.mp hy) hne hxy
  have hdisj : List.Disjoint ((s.room_users room_id).map Prod.fst)
      ((simUsersList gen count).map Prod.fst) := by
    intro k hk1 hk2
    rw [hknew] at hk2
    rcases List.mem_map.mp hk2 with ⟨i, hi, rfl⟩
    rcases List.mem_map.mp hk1 with ⟨p, hp, hpk⟩
    exact (containsK_false_iff _ _).mp (hfresh i (List.mem_range.mp hi)) p hp hpk
  have hndAll : (((s.room_users room_id ++ simUsersList gen count)).map Prod.fst).Nodup := by
    rw [List.map_append]
    exact List.Nodup.append hndU hndNew hdisj
  have hfiltS : (s.room_users room_id ++ simUsersList gen count).filter (fun p => p.2.simulated)
      = simUsersList gen count := by
    rw [List.filter_append]
    rw [List.filter_eq_nil_iff.mpr (by
      intro p hp
      simp [horg p hp])]
    rw [List.filter_eq_self.mpr (by
      intro p hp
      rcases mem_simUsersList gen count p hp with ⟨i, _, rfl⟩
      exact simUser_simulated gen i)]
    exact List.nil_append _
  have hfiltN : (s.room_users room_id ++ simUsersList gen count).filter (fun p => !p.2.simulated)
      = s.room_users room_id := by
    rw [List.filter_append]
    rw [List.filter_eq_self.mpr (by
      intro p hp
      simp [horg p hp])]
    rw [List.filter_eq_nil_iff.mpr (by
      intro p hp
      rcases mem_simUsersList gen count p hp with ⟨i, _, rfl⟩
      simp [simUser_simulated gen i])]
    exact List.append_nil _
  have hcsP : connsOf (simulate_users s room_id count gen) room_id = connsOf s room_id := by
    rw [hsim]
    exact hc1
  have hrem := remove_fold room_id (connsOf s room_id)
    ((simUsersList gen count).map (fun p => p.1)) (simulate_users s room_id count gen) 0 hcsP hok
  have hremove : remove_simulated_users (simulate_users s room_id count gen) room_id
      = ({ simulate_users s room_id count gen with
            room_users := updRoom (simulate_users s room_id count gen).room_users room_id
              (((simUsersList gen count).map (fun p => p.1)).foldl (fun d k => eraseK d k)
                ((simulate_users s room_id count gen).room_users room_id)),
            sent := (simulate_users s room_id count gen).sent
              ++ ((simUsersList gen count).map (fun p => p.1)).flatMap
                  (fun k => delivered (connsOf s room_id) none (.userLeft k)) },
         0 + ((simUsersList gen count).map (fun p => p.1)).length) := by
    unfold remove_simulated_users
    rw [show ((simulate_users s room_id count gen).room_users room_id).filter (fun p => p.2.simulated)
          = simUsersList gen count by rw [ra]; exact hfiltS]
    exact hrem
  have hfoldErase : ((simUsersList gen count).map (fun p => p.1)).foldl (fun d k => eraseK d k)
      ((simulate_users s room_id count gen).room_users room_id)
      = s.room_users room_id := by
    rw [ra]
    rw [show ((simUsersList gen count).map (fun p => p.1))
          = (((s.room_users room_id ++ simUsersList gen count).filter (fun p => p.2.simulated)).map (fun p => p.1)) by
        rw [hfiltS]]
    rw [eraseFold_filter_users _ hndAll]
    exact hfiltN
  refine ⟨ra, ?_, ?_, ?_, ?_, ?_, ?_⟩
  · rw [ra, List.length_append, hlenNew]
  · intro q hq
    rcases mem_simUsersList gen count q hq with ⟨i, _, rfl⟩
    exact simUser_simulated gen i
  · rw [hsim]
    show (simInsertPhase s room_id count gen).sent ++ _ = _
    rw [hs, List.flatMap_map]
  · rw [hremove]
    show updRoom (simulate_users s room_id count gen).room_users room_id _ room_id = _
    rw [updRoom_self, hfoldErase]
  · rw [hremove]
    show 0 + ((simUsersList gen count).map (fun p => p.1)).length = count
    rw [List.length_map, hlenNew, Nat.zero_add]
  · rw [hremove]

/-- Witness for C9: two synthetic users in a room with two healthy organic
users. -/
theorem simulate_users_spec_witness :
    (simulate_users stateW3 "r" 2 genW).room_users "r"
        = stateW3.room_users "r" ++ simUsersList genW 2
    ∧ ((simulate_users stateW3 "r" 2 genW).room_users "r").length
        = (stateW3.room_users "r").length + 2
    ∧ (∀ q ∈ simUsersList genW 2, q.2.simulated = true)
    ∧ (simulate_users stateW3 "r" 2 genW).sent
        = stateW3.sent ++ (List.range 2).flatMap
            (fun i => delivered (connsOf stateW3 "r") none (.userJoinedFull (simUser genW i).2))
    ∧ (remove_simulated_users (simulate_users stateW3 "r" 2 genW) "r").1.room_users "r"
        = stateW3.room_users "r"
    ∧ (remove_simulated_users (simulate_users stateW3 "r" 2 genW) "r").2 = 2
    ∧ (remove_simulated_users (simulate_users stateW3 "r" 2 genW) "r").1.sent
        = (simulate_users stateW3 "r" 2 genW).sent
            ++ ((simUsersList genW 2).map (fun p => p.1)).flatMap
                (fun k => delivered (connsOf stateW3 "r") none (.userLeft k)) :=
  simulate_users_spec stateW3 "r" 2 genW (by decide) (by decide) (by decide) (by decide) (by decide)

/-- C10 (implicit): `get_events(0)` returns the entire event buffer (the
slice `events[-0:]` is the whole list); for positive limits it returns the
`min(limit, length)` most recent events, oldest first (a suffix of the
buffer). -/
theorem get_events_limit_spec (m : MetricsState) (limit : Nat) :
    (limit = 0 → get_events m limit = m.events)
    ∧ (0 < limit →
        (get_events m limit).length = min limit m.events.length
        ∧ get_events m limit <:+ m.events
        ∧ get_events m limit = m.events.drop (m.events.length - limit)) := by
  constructor
  · intro h
    simp [get_events, takeLast, h]
  · intro h
    refine ⟨length_takeLast _ _ (by omega), takeLast_suffix _ _, ?_⟩
    simp [get_events, takeLast, Nat.pos_iff_ne_zero.mp h]

/-- Witness for C10 at a three-event buffer, with limit 0 and limit 2. -/
theorem get_events_limit_spec_witness :
    get_events mC10 0 = mC10.events
    ∧ (get_events mC10 2).length = min 2 mC10.events.length
    ∧ get_events mC10 2 <:+ mC10.events :=
  ⟨(get_events_limit_spec mC10 0).1 rfl,
   ((get_events_limit_spec mC10 2).2 (by decide)).1,
   ((get_events_limit_spec mC10 2).2 (by decide)).2.1⟩

end Backend
